import Mathlib

/-!
Shallow embedding of the cpgo repository core: the run orchestrator
(Service.Run), request normalization (RunRequest.normalized), the
pull-request marker append (appendMarker), and the GitHub client's
ReadFile and updateHeadRef logic.  External collaborators (profile
fetcher, validator, GitHub REST endpoints) are modelled as oracle
environments recording one outcome per call site; byte slices are
List Nat; Go strings are Lean String with ASCII whitespace trimming.
-/

deriving instance DecidableEq for Except

namespace Cpgo

/-- ASCII whitespace recognised by Go strings.TrimSpace (the configs in
scope are ASCII; the Unicode cases coincide on them). -/
def isSpaceChar (c : Char) : Bool :=
  c == ' ' || c == '\t' || c == '\n' || c == '\x0b' || c == '\x0c' || c == '\r'

/-- Embeds Go strings.TrimSpace. -/
def trimSpace (s : String) : String :=
  String.mk (((s.data.dropWhile isSpaceChar).reverse.dropWhile isSpaceChar).reverse)

/-- Embeds Go strings.Contains: pat occurs as a contiguous substring of s. -/
def strContains (s pat : String) : Bool :=
  s.data.tails.any fun t => pat.data.isPrefixOf t

/-- Embeds Go strings.TrimRight(s, newline): drop trailing newline chars. -/
def trimRightNewlines (s : String) : String :=
  String.mk ((s.data.reverse.dropWhile (fun c => c == '\n')).reverse)

/-- ASCII lowercase conversion of one character. -/
def lowerChar (c : Char) : Char :=
  if 65 ≤ c.toNat ∧ c.toNat ≤ 90 then Char.ofNat (c.toNat + 32) else c

/-- Embeds Go strings.ToLower (the error messages the client inspects
are ASCII; the Unicode cases coincide on them). -/
def toLower (s : String) : String :=
  String.mk (s.data.map lowerChar)

/-- Number of (possibly overlapping) occurrences of pat in s. -/
def countOccurrences (s pat : String) : Nat :=
  (s.data.tails.filter fun t => pat.data.isPrefixOf t).length

/-- Embeds appendMarker from the orchestrator source: return the body
unchanged when it already contains the marker, the marker alone when the
body is blank, and otherwise the body with trailing newlines trimmed,
a blank line, and the marker. -/
def appendMarker (body marker : String) : String :=
  if strContains body marker then body
  else if trimSpace body = "" then marker
  else trimRightNewlines body ++ "\n\n" ++ marker

/-- Default literals from the source. -/
def defaultProfileSeconds : Int := 30

def defaultHeadBranch : String := "cpgo"

def defaultManagedByMarker : String := "<!-- managed-by:cpgo -->"

def defaultPRTitle : String := "perf(pgo): refresh pgo profile"

def defaultPRBody : String := "Automated PGO profile refresh."

def defaultCommitMessage : String := "perf(pgo): refresh pgo profile"

/-- The scheme and host components of a net/url URL (the only components
the core reads). -/
structure URL where
  scheme : String
  host : String
deriving DecidableEq, Repr

/-- ProfileSettings from the source; a nil URL pointer is none. -/
structure ProfileSettings where
  url : Option URL
  seconds : Int
  headers : List (String × String)
deriving DecidableEq, Repr

/-- RepositorySettings from the source. -/
structure RepositorySettings where
  owner : String
  name : String
  pgoPath : String
  baseBranch : String
  headBranch : String
deriving DecidableEq, Repr

/-- PullRequestSettings from the source. -/
structure PullRequestSettings where
  title : String
  body : String
  managedByMarker : String
deriving DecidableEq, Repr

/-- CommitSettings from the source. -/
structure CommitSettings where
  message : String
deriving DecidableEq, Repr

/-- RunRequest from the source. -/
structure RunRequest where
  profile : ProfileSettings
  repository : RepositorySettings
  pullRequest : PullRequestSettings
  commit : CommitSettings
deriving DecidableEq, Repr

/-- Embeds RunRequest.normalized: validates required fields in source
order and applies the cpgo defaults, threading the updated copy forward
exactly as the Go code reassigns its local. -/
def RunRequest.normalized (req : RunRequest) : Except String RunRequest :=
  match req.profile.url with
  | none => .error "profile url is required"
  | some u =>
    if u.scheme = "" ∨ u.host = "" then
      .error "profile url must include scheme and host"
    else
      let r1 := if req.profile.seconds ≤ 0 then
          { req with profile := { req.profile with seconds := defaultProfileSeconds } }
        else req
      if trimSpace r1.repository.owner = "" then .error "repository owner is required"
      else if trimSpace r1.repository.name = "" then .error "repository name is required"
      else if trimSpace r1.repository.pgoPath = "" then .error "repository pgo path is required"
      else
        let r2 := if trimSpace r1.repository.headBranch = "" then
            { r1 with repository := { r1.repository with headBranch := defaultHeadBranch } }
          else r1
        let r3 := if trimSpace r2.pullRequest.managedByMarker = "" then
            { r2 with pullRequest := { r2.pullRequest with managedByMarker := defaultManagedByMarker } }
          else r2
        let r4 := if trimSpace r3.pullRequest.title = "" then
            { r3 with pullRequest := { r3.pullRequest with title := defaultPRTitle } }
          else r3
        let r5 := if trimSpace r4.pullRequest.body = "" then
            { r4 with pullRequest := { r4.pullRequest with body := defaultPRBody } }
          else r4
        let r6 := if trimSpace r5.commit.message = "" then
            { r5 with commit := { r5.commit with message := defaultCommitMessage } }
          else r5
        .ok r6

/-- PullRequest metadata subset used by cpgo. -/
structure PullRequest where
  number : Int
  title : String
  body : String
  url : String
deriving DecidableEq, Repr

/-- ReadFileResult from the interfaces: optional file content. -/
structure ReadFileResult where
  content : List Nat
  hasFile : Bool
deriving DecidableEq, Repr

/-- UpsertFileResult from the interfaces. -/
structure UpsertFileResult where
  commitSHA : String
  isBranchCreated : Bool
deriving DecidableEq, Repr

/-- RunResult from the orchestrator source. -/
structure RunResult where
  baseBranch : String
  headBranch : String
  pullRequestNumber : Int
  commitSHA : String
  isProfileChanged : Bool
  isPullRequestCreated : Bool
  isNoop : Bool
deriving DecidableEq, Repr

/-- Errors Run can return: the InvalidRequest-style normalization errors,
the distinguished ErrUnmanagedPullRequest sentinel, and collaborator
errors wrapped with the stage label the Go code puts in fmt.Errorf. -/
inductive RunError where
  | invalidRequest (msg : String)
  | unmanagedPullRequest
  | wrapped (stage : String) (msg : String)
deriving DecidableEq, Repr

/-- Oracle environment for one run: the outcome each collaborator call
would produce.  Every collaborator is invoked at most once per run, so a
single outcome per call site suffices. -/
structure Env where
  fetchProfile : Except String (List Nat)
  validateProfile : List Nat → Option String
  defaultBranch : Except String String
  findOpen : Except String (Option PullRequest)
  readFile : Except String ReadFileResult
  upsert : Except String UpsertFileResult
  createPR : Except String PullRequest

/-- Collaborator invocation counts for one run, in call order: profile
fetch, profile validate, default-branch lookup, pull-request find, file
read, upsert-and-force-branch, pull-request create. -/
structure Trace where
  fetch : Nat
  validate : Nat
  defBranch : Nat
  find : Nat
  read : Nat
  upsert : Nat
  create : Nat
deriving DecidableEq, Repr

def Trace.zero : Trace := ⟨0, 0, 0, 0, 0, 0, 0⟩

/-- Embeds Service.resolveBaseBranch: use the configured base branch when
non-blank, else ask the writer for the default branch.  The Nat records
whether the DefaultBranch collaborator was called. -/
def resolveBaseBranch (env : Env) (baseBranchCfg : String) : Except RunError String × Nat :=
  if trimSpace baseBranchCfg ≠ "" then (.ok baseBranchCfg, 0)
  else
    match env.defaultBranch with
    | .error e => (.error (.wrapped "resolve default branch" e), 1)
    | .ok b => (.ok b, 1)

/-- Embeds prNumber from the source: 0 for nil. -/
def prNumber : Option PullRequest → Int
  | none => 0
  | some pr => pr.number

/-- The unmanaged pull request guard condition from Service.Run:
openPR is non-nil and its body does not contain the marker. -/
def unmanagedGuard : Option PullRequest → String → Bool
  | none, _ => false
  | some pr, marker => !(strContains pr.body marker)

/-- Embeds Service.Run: normalize, fetch, validate, resolve base branch,
find open PR, unmanaged guard, read artifact, noop check, upsert, and
reuse-or-create, returning the Go result or error together with the
collaborator invocation counts. -/
def Service.Run (env : Env) (req : RunRequest) : Except RunError RunResult × Trace :=
  match req.normalized with
  | .error msg => (.error (.invalidRequest msg), Trace.zero)
  | .ok n =>
  match env.fetchProfile with
  | .error e => (.error (.wrapped "fetch cpu profile" e), ⟨1, 0, 0, 0, 0, 0, 0⟩)
  | .ok profile =>
  match env.validateProfile profile with
  | some e => (.error (.wrapped "validate cpu profile" e), ⟨1, 1, 0, 0, 0, 0, 0⟩)
  | none =>
  match resolveBaseBranch env n.repository.baseBranch with
  | (.error e, d) => (.error e, ⟨1, 1, d, 0, 0, 0, 0⟩)
  | (.ok baseBranch, d) =>
  match env.findOpen with
  | .error e => (.error (.wrapped "find open pull request" e), ⟨1, 1, d, 1, 0, 0, 0⟩)
  | .ok openPR =>
  if unmanagedGuard openPR n.pullRequest.managedByMarker then
    (.error .unmanagedPullRequest, ⟨1, 1, d, 1, 0, 0, 0⟩)
  else
  match env.readFile with
  | .error e => (.error (.wrapped "read base branch pgo file" e), ⟨1, 1, d, 1, 1, 0, 0⟩)
  | .ok rr =>
  if rr.hasFile = true ∧ rr.content = profile then
    (.ok { baseBranch := baseBranch, headBranch := n.repository.headBranch,
           pullRequestNumber := prNumber openPR, commitSHA := "",
           isProfileChanged := false, isPullRequestCreated := false, isNoop := true },
     ⟨1, 1, d, 1, 1, 0, 0⟩)
  else
  match env.upsert with
  | .error e => (.error (.wrapped "update pgo branch" e), ⟨1, 1, d, 1, 1, 1, 0⟩)
  | .ok wr =>
  match openPR with
  | some pr =>
    (.ok { baseBranch := baseBranch, headBranch := n.repository.headBranch,
           pullRequestNumber := pr.number, commitSHA := wr.commitSHA,
           isProfileChanged := true, isPullRequestCreated := false, isNoop := false },
     ⟨1, 1, d, 1, 1, 1, 0⟩)
  | none =>
  match env.createPR with
  | .error e => (.error (.wrapped "create pull request" e), ⟨1, 1, d, 1, 1, 1, 1⟩)
  | .ok createdPR =>
    (.ok { baseBranch := baseBranch, headBranch := n.repository.headBranch,
           pullRequestNumber := createdPR.number, commitSHA := wr.commitSHA,
           isProfileChanged := true, isPullRequestCreated := true, isNoop := false },
     ⟨1, 1, d, 1, 1, 1, 1⟩)

/-- The fields of a github.ErrorResponse the client error classifiers
inspect; isErrorResponse models whether errors.As succeeds and
hasResponse whether the embedded HTTP response is non-nil. -/
structure GHErr where
  isErrorResponse : Bool
  hasResponse : Bool
  statusCode : Nat
  message : String
  errorMessages : List String
deriving DecidableEq, Repr

/-- Embeds isNotFound from the client source. -/
def isNotFound (e : GHErr) : Bool :=
  e.isErrorResponse && e.hasResponse && e.statusCode == 404

/-- Embeds isReferenceMissing from the client source. -/
def isReferenceMissing (e : GHErr) : Bool :=
  e.isErrorResponse && e.hasResponse && e.statusCode == 422 &&
    (strContains (toLower e.message) "reference does not exist" ||
     e.errorMessages.any fun m => strContains (toLower m) "reference does not exist")

/-- One branch-pointer mutation attempt on the head ref: a force-update
(UpdateRef with Force) or a ref creation (CreateRef), with its target
commit SHA. -/
inductive RefOp where
  | update (sha : String)
  | create (sha : String)
deriving DecidableEq, Repr

/-- Oracle outcomes for the up to three ref calls updateHeadRef can make,
in call order: first force-update, ref creation, retry force-update.
none means the call succeeds. -/
structure RefEnv where
  updateRef1 : Option GHErr
  createRef : Option GHErr
  updateRef2 : Option GHErr
deriving DecidableEq, Repr

/-- Errors updateHeadRef can surface: a generic force-update failure, or
the combined error carrying both the ref-creation failure and the retry
force-update failure. -/
inductive UpdateHeadRefError where
  | forceUpdateFailed (e : GHErr)
  | createFailed (createErr : GHErr) (retryErr : GHErr)
deriving DecidableEq, Repr

/-- Embeds updateHeadRef from the client source: force-update the head
ref; on a recognizable missing-reference failure fall back to creating
the ref; if creation also fails, retry the force-update exactly once and
otherwise surface the combined error.  Returns the isBranchCreated flag
and the list of ref-mutation attempts performed, in order. -/
def updateHeadRef (env : RefEnv) (commitSHA : String) :
    Except UpdateHeadRefError Bool × List RefOp :=
  match env.updateRef1 with
  | none => (.ok false, [.update commitSHA])
  | some e =>
    if !(isNotFound e) && !(isReferenceMissing e) then
      (.error (.forceUpdateFailed e), [.update commitSHA])
    else
      match env.createRef with
      | none => (.ok true, [.update commitSHA, .create commitSHA])
      | some ce =>
        match env.updateRef2 with
        | none => (.ok false, [.update commitSHA, .create commitSHA, .update commitSHA])
        | some ue =>
          (.error (.createFailed ce ue),
           [.update commitSHA, .create commitSHA, .update commitSHA])

/-- RepositoryRef from the interfaces. -/
structure RepositoryRef where
  owner : String
  name : String
deriving DecidableEq, Repr

/-- ReadFileRequest from the interfaces. -/
structure ReadFileRequest where
  repository : RepositoryRef
  branch : String
  path : String
deriving DecidableEq, Repr

/-- A git tree entry as returned by the GetTree endpoint. -/
structure TreeEntry where
  path : String
  entryType : String
  sha : String
deriving DecidableEq, Repr

/-- A GetTree response: recursively expanded entries plus the truncation
flag set by the hosting platform on partial listings. -/
structure TreeResp where
  entries : List TreeEntry
  truncated : Bool
deriving DecidableEq, Repr

/-- Oracle outcomes of the external calls Client.ReadFile makes: the
baseCommitTree helper (GetRef plus GetCommit, compressed to its
commit/tree SHA pair or wrapped error message), the GetTree call, and
the GetBlobRaw call. -/
structure ReadEnv where
  baseCommitTree : Except String (String × String)
  getTree : Except GHErr TreeResp
  getBlobRaw : Except GHErr (List Nat)

/-- Errors Client.ReadFile can return. -/
inductive ReadFileError where
  | validation (msg : String)
  | baseLookup (msg : String)
  | getTreeFailed (e : GHErr)
  | notBlobEntry (path : String)
  | treeTruncated (path : String)
  | getBlobFailed (sha : String) (e : GHErr)
deriving DecidableEq, Repr

/-- The tree-entry scan loop from Client.ReadFile: first entry whose path
matches decides; a non-blob match is an error, otherwise its trimmed SHA
is returned (empty string when no entry matched, as in the Go local). -/
def findBlobSHA (path : String) : List TreeEntry → Except ReadFileError String
  | [] => .ok ""
  | e :: rest =>
    if e.path = path then
      if e.entryType ≠ "blob" then .error (.notBlobEntry path)
      else .ok (trimSpace e.sha)
    else findBlobSHA path rest

/-- Embeds Client.ReadFile: validate the request, resolve the base
commit and tree, list the tree, scan for the path, then fetch the blob,
treating a not-found blob as an absent file. -/
def Client.ReadFile (env : ReadEnv) (req : ReadFileRequest) :
    Except ReadFileError ReadFileResult :=
  if trimSpace req.repository.owner = "" then .error (.validation "repository owner is required")
  else if trimSpace req.repository.name = "" then .error (.validation "repository name is required")
  else if trimSpace req.branch = "" then .error (.validation "branch is required")
  else if trimSpace req.path = "" then .error (.validation "path is required")
  else
  match env.baseCommitTree with
  | .error msg => .error (.baseLookup msg)
  | .ok _ =>
  match env.getTree with
  | .error e => .error (.getTreeFailed e)
  | .ok tree =>
  match findBlobSHA req.path tree.entries with
  | .error e => .error e
  | .ok blobSHA =>
  if blobSHA = "" then
    if tree.truncated then .error (.treeTruncated req.path)
    else .ok { content := [], hasFile := false }
  else
  match env.getBlobRaw with
  | .error e =>
    if isNotFound e then .ok { content := [], hasFile := false }
    else .error (.getBlobFailed blobSHA e)
  | .ok content => .ok { content := content, hasFile := true }

/-! ## Concrete fixtures used by witness theorems -/

/-- A fully populated valid request; normalization leaves it unchanged. -/
def sampleReq : RunRequest :=
  { profile := { url := some ⟨"https", "svc.example"⟩, seconds := 17, headers := [] },
    repository := { owner := "acme", name := "payments", pgoPath := "default.pgo",
                    baseBranch := "main", headBranch := "cpgo" },
    pullRequest := { title := "perf(pgo): refresh pgo profile",
                     body := "Automated PGO profile refresh.",
                     managedByMarker := "<!-- managed-by:cpgo -->" },
    commit := { message := "perf(pgo): refresh pgo profile" } }

/-- An invalid request: nil profile URL. -/
def badReq : RunRequest :=
  { profile := { url := none, seconds := 0, headers := [] },
    repository := { owner := "", name := "", pgoPath := "",
                    baseBranch := "", headBranch := "" },
    pullRequest := { title := "", body := "", managedByMarker := "" },
    commit := { message := "" } }

/-- A valid request that leaves every defaultable field blank. -/
def blankReq : RunRequest :=
  { profile := { url := some ⟨"https", "svc.example"⟩, seconds := 0, headers := [] },
    repository := { owner := "acme", name := "payments", pgoPath := "default.pgo",
                    baseBranch := "", headBranch := "" },
    pullRequest := { title := "", body := "", managedByMarker := "" },
    commit := { message := "" } }

/-- What normalization produces on blankReq: every default filled in. -/
def blankNorm : RunRequest :=
  { profile := { url := some ⟨"https", "svc.example"⟩, seconds := 30, headers := [] },
    repository := { owner := "acme", name := "payments", pgoPath := "default.pgo",
                    baseBranch := "", headBranch := "cpgo" },
    pullRequest := { title := defaultPRTitle, body := defaultPRBody,
                     managedByMarker := defaultManagedByMarker },
    commit := { message := defaultCommitMessage } }

/-- Environment whose open pull request lacks the managed-by marker. -/
def envUnmanaged : Env :=
  { fetchProfile := .ok [1, 2, 3],
    validateProfile := fun _ => none,
    defaultBranch := .ok "main",
    findOpen := .ok (some ⟨12, "manual", "manual pull request", "u"⟩),
    readFile := .ok ⟨[], false⟩,
    upsert := .ok ⟨"sha", false⟩,
    createPR := .ok ⟨1, "", "", ""⟩ }

/-- Environment whose open unmanaged pull request coexists with an
artifact already equal to the fetched profile. -/
def envUnmanagedNoop : Env :=
  { fetchProfile := .ok [9, 9],
    validateProfile := fun _ => none,
    defaultBranch := .ok "main",
    findOpen := .ok (some ⟨12, "manual", "manual pull request", "u"⟩),
    readFile := .ok ⟨[9, 9], true⟩,
    upsert := .ok ⟨"sha", false⟩,
    createPR := .ok ⟨1, "", "", ""⟩ }

/-- Environment where the artifact already equals the fetched profile. -/
def envNoop : Env :=
  { fetchProfile := .ok [9, 9],
    validateProfile := fun _ => none,
    defaultBranch := .ok "main",
    findOpen := .ok none,
    readFile := .ok ⟨[9, 9], true⟩,
    upsert := .ok ⟨"sha", false⟩,
    createPR := .ok ⟨7, "", "", ""⟩ }

/-- Environment with an open managed pull request and changed content. -/
def envReuse : Env :=
  { fetchProfile := .ok [1],
    validateProfile := fun _ => none,
    defaultBranch := .ok "main",
    findOpen := .ok (some ⟨12, "t", "refresh <!-- managed-by:cpgo --> end", "u"⟩),
    readFile := .ok ⟨[2], true⟩,
    upsert := .ok ⟨"newsha", false⟩,
    createPR := .ok ⟨99, "", "", ""⟩ }

/-- A 422 error whose message marks the head ref as missing. -/
def ghRefMissing : GHErr := ⟨true, true, 422, "reference does not exist", []⟩

/-- A 422 error raised when the ref was concurrently created. -/
def ghAlreadyExists : GHErr := ⟨true, true, 422, "reference already exists", []⟩

/-- A generic server-side failure. -/
def ghServerErr : GHErr := ⟨true, true, 500, "boom", []⟩

/-- A 404 response. -/
def ghNotFound : GHErr := ⟨true, true, 404, "not found", []⟩

/-- Ref environment where the first force-update succeeds. -/
def refEnvOkUpdate : RefEnv := ⟨none, none, none⟩

/-- Ref environment where the ref is missing and creation succeeds. -/
def refEnvCreate : RefEnv := ⟨some ghRefMissing, none, none⟩

/-- Ref environment where the update, the creation, and the retried
update all fail: the contended worst case. -/
def refEnvContended : RefEnv := ⟨some ghRefMissing, some ghAlreadyExists, some ghServerErr⟩

/-- A read request with non-blank fields. -/
def readReq : ReadFileRequest := ⟨⟨"acme", "payments"⟩, "main", "default.pgo"⟩

/-- Read environment: complete tree listing without the artifact path. -/
def readEnvNoMatch : ReadEnv :=
  ⟨.ok ("csha", "tsha"), .ok ⟨[⟨"README.md", "blob", "sha1"⟩], false⟩, .ok []⟩

/-- Read environment: truncated tree listing without the artifact path. -/
def readEnvTruncated : ReadEnv :=
  ⟨.ok ("csha", "tsha"), .ok ⟨[⟨"README.md", "blob", "sha1"⟩], true⟩, .ok []⟩

/-- Read environment: the artifact path names a subtree, not a blob. -/
def readEnvNonBlob : ReadEnv :=
  ⟨.ok ("csha", "tsha"), .ok ⟨[⟨"default.pgo", "tree", "sha2"⟩], false⟩, .ok []⟩

/-- Read environment: matching blob entry whose blob fetch returns 404. -/
def readEnvBlobGone : ReadEnv :=
  ⟨.ok ("csha", "tsha"), .ok ⟨[⟨"default.pgo", "blob", "sha3"⟩], false⟩, .error ghNotFound⟩

/-! ## Theorems -/

theorem isPrefixOf_self (l : List Char) : l.isPrefixOf l = true := by
  induction l with
  | nil => rfl
  | cons a as ih => simp [List.isPrefixOf, ih]

theorem tails_any_append_self (x p : List Char) :
    ((x ++ p).tails.any fun t => p.isPrefixOf t) = true := by
  induction x with
  | nil =>
    cases p with
    | nil => rfl
    | cons c cs => simp [List.tails_cons, isPrefixOf_self]
  | cons a as ih =>
    rw [List.cons_append, List.tails_cons, List.any_cons, ih, Bool.or_true]

theorem strContains_append_self (x m : String) :
    strContains (x ++ m) m = true := by
  have hdata : (x ++ m).data = x.data ++ m.data := rfl
  simp only [strContains, hdata]
  exact tails_any_append_self x.data m.data

theorem strContains_self (m : String) : strContains m m = true :=
  tails_any_append_self [] m.data

/-- C5 counterexample: for a body ending in a newline the result is not
literally body, blank line, marker — the trailing newline is trimmed. -/
theorem appendMarker_not_literal_concat :
    appendMarker "hello\n" "M" ≠ "hello\n" ++ "\n\n" ++ "M" := by decide

/-- C5 (amended): the marker-append result always contains the marker; a
body already containing the marker is returned unchanged, so the append is
idempotent; a blank body yields the marker alone; otherwise the result is
the body with trailing newlines removed, a blank-line separator, and the
marker; and the body of a pull request created from the default body text
(a non-empty string) contains the default marker exactly once. -/
theorem appendMarker_spec (body marker : String) :
    strContains (appendMarker body marker) marker = true ∧
    (strContains body marker = true → appendMarker body marker = body) ∧
    appendMarker (appendMarker body marker) marker = appendMarker body marker ∧
    (strContains body marker = false → trimSpace body = "" →
      appendMarker body marker = marker) ∧
    (strContains body marker = false → trimSpace body ≠ "" →
      appendMarker body marker = trimRightNewlines body ++ "\n\n" ++ marker) ∧
    countOccurrences (appendMarker defaultPRBody defaultManagedByMarker)
      defaultManagedByMarker = 1 := by
  have hcontains : strContains (appendMarker body marker) marker = true := by
    unfold appendMarker
    by_cases h1 : strContains body marker
    · simp [h1]
    · by_cases h2 : trimSpace body = ""
      · simp only [h1, if_false, h2, if_true, Bool.false_eq_true]
        exact strContains_self marker
      · simp only [h1, if_false, h2, if_true, Bool.false_eq_true]
        exact strContains_append_self (trimRightNewlines body ++ "\n\n") marker
  refine ⟨hcontains, ?_, ?_, ?_, ?_, ?_⟩
  · intro h; simp [appendMarker, h]
  · set x := appendMarker body marker with hx
    simp [appendMarker, hcontains]
  · intro h1 h2; simp [appendMarker, h1, h2]
  · intro h1 h2; simp [appendMarker, h1, h2]
  · decide

/-- C5 witness: the amended properties evaluated at concrete inputs. -/
theorem appendMarker_spec_witness :
    appendMarker "x <m> y" "<m>" = "x <m> y" ∧
    appendMarker "  " "<m>" = "<m>" ∧
    appendMarker "hi\n" "<m>" = trimRightNewlines "hi\n" ++ "\n\n" ++ "<m>" :=
  ⟨(appendMarker_spec "x <m> y" "<m>").2.1 (by decide),
   (appendMarker_spec "  " "<m>").2.2.2.1 (by decide) (by decide),
   (appendMarker_spec "hi\n" "<m>").2.2.2.2.1 (by decide) (by decide)⟩

/-- C2: a run either performs no repository mutation (neither the upsert
nor the pull-request create is invoked), or it invokes the upsert exactly
once and the create at most once. -/
theorem run_mutation_bound (env : Env) (req : RunRequest) :
    ((Service.Run env req).2.upsert = 0 ∧ (Service.Run env req).2.create = 0) ∨
    ((Service.Run env req).2.upsert = 1 ∧ (Service.Run env req).2.create ≤ 1) := by
  unfold Service.Run
  repeat' split
  all_goals simp [Trace.zero]

/-- C1: when the lookup finds an open pull request whose body lacks the
managed-by marker, Run returns the distinguished UnmanagedPullRequest
error and invokes neither the upsert nor the pull-request create. -/
theorem run_unmanaged_pull_request (env : Env) (req n : RunRequest)
    (profile : List Nat) (base : String) (d : Nat) (pr : PullRequest)
    (hn : req.normalized = .ok n)
    (hf : env.fetchProfile = .ok profile)
    (hv : env.validateProfile profile = none)
    (hb : resolveBaseBranch env n.repository.baseBranch = (.ok base, d))
    (hfind : env.findOpen = .ok (some pr))
    (hmk : strContains pr.body n.pullRequest.managedByMarker = false) :
    Service.Run env req = (.error .unmanagedPullRequest, ⟨1, 1, d, 1, 0, 0, 0⟩) ∧
    (Service.Run env req).2.upsert = 0 ∧ (Service.Run env req).2.create = 0 := by
  have hrun : Service.Run env req = (.error .unmanagedPullRequest, ⟨1, 1, d, 1, 0, 0, 0⟩) := by
    unfold Service.Run
    simp only [hn, hf, hv, hb, hfind]
    simp [unmanagedGuard, hmk]
  exact ⟨hrun, by rw [hrun], by rw [hrun]⟩

/-- C1 witness: concrete unmanaged pull request blocks the run. -/
theorem run_unmanaged_pull_request_witness :
    Service.Run envUnmanaged sampleReq =
      (.error .unmanagedPullRequest, ⟨1, 1, 0, 1, 0, 0, 0⟩) :=
  (run_unmanaged_pull_request envUnmanaged sampleReq sampleReq [1, 2, 3] "main" 0
    ⟨12, "manual", "manual pull request", "u"⟩
    (by decide) rfl rfl (by decide) rfl (by decide)).1

/-- C10: the unmanaged guard takes precedence over the noop path: even
when the stored artifact bytes equal the fetched profile bytes, an open
pull request without the marker makes Run fail with
UnmanagedPullRequest (the artifact is never read, nothing is written,
and no noop result is returned). -/
theorem run_unmanaged_guard_precedes_noop (env : Env) (req n : RunRequest)
    (profile : List Nat) (base : String) (d : Nat) (pr : PullRequest)
    (hn : req.normalized = .ok n)
    (hf : env.fetchProfile = .ok profile)
    (hv : env.validateProfile profile = none)
    (hb : resolveBaseBranch env n.repository.baseBranch = (.ok base, d))
    (hfind : env.findOpen = .ok (some pr))
    (hmk : strContains pr.body n.pullRequest.managedByMarker = false)
    (_hread : env.readFile = .ok ⟨profile, true⟩) :
    Service.Run env req = (.error .unmanagedPullRequest, ⟨1, 1, d, 1, 0, 0, 0⟩) := by
  unfold Service.Run
  simp only [hn, hf, hv, hb, hfind]
  simp [unmanagedGuard, hmk]

/-- C10 witness: unmanaged pull request with an already matching
artifact still fails. -/
theorem run_unmanaged_guard_precedes_noop_witness :
    Service.Run envUnmanagedNoop sampleReq =
      (.error .unmanagedPullRequest, ⟨1, 1, 0, 1, 0, 0, 0⟩) :=
  run_unmanaged_guard_precedes_noop envUnmanagedNoop sampleReq sampleReq [9, 9] "main" 0
    ⟨12, "manual", "manual pull request", "u"⟩
    (by decide) rfl rfl (by decide) rfl (by decide) rfl

/-- C3: when the artifact exists on the base branch with bytes equal to
the fetched profile, Run is a noop: it returns isNoop true with the
number of any pull request found by the lookup and performs no write. -/
theorem run_noop (env : Env) (req n : RunRequest)
    (profile : List Nat) (base : String) (d : Nat)
    (openPR : Option PullRequest) (rr : ReadFileResult)
    (hn : req.normalized = .ok n)
    (hf : env.fetchProfile = .ok profile)
    (hv : env.validateProfile profile = none)
    (hb : resolveBaseBranch env n.repository.baseBranch = (.ok base, d))
    (hfind : env.findOpen = .ok openPR)
    (hmanaged : unmanagedGuard openPR n.pullRequest.managedByMarker = false)
    (hread : env.readFile = .ok rr)
    (hfile : rr.hasFile = true) (hsame : rr.content = profile) :
    Service.Run env req =
      (.ok { baseBranch := base, headBranch := n.repository.headBranch,
             pullRequestNumber := prNumber openPR, commitSHA := "",
             isProfileChanged := false, isPullRequestCreated := false, isNoop := true },
       ⟨1, 1, d, 1, 1, 0, 0⟩) := by
  unfold Service.Run
  simp only [hn, hf, hv, hb, hfind, hmanaged, hread]
  simp [hfile, hsame]

/-- C3 witness: unchanged profile yields a noop with no mutation. -/
theorem run_noop_witness :
    Service.Run envNoop sampleReq =
      (.ok { baseBranch := "main", headBranch := "cpgo",
             pullRequestNumber := 0, commitSHA := "",
             isProfileChanged := false, isPullRequestCreated := false, isNoop := true },
       ⟨1, 1, 0, 1, 1, 0, 0⟩) :=
  run_noop envNoop sampleReq sampleReq [9, 9] "main" 0 none ⟨[9, 9], true⟩
    (by decide) rfl rfl (by decide) rfl rfl rfl rfl rfl

/-- C4: with an open managed pull request and differing content, Run
invokes the upsert, does not create a new pull request, and returns the
existing pull request number with isPullRequestCreated false. -/
theorem run_reuse_managed_pr (env : Env) (req n : RunRequest)
    (profile : List Nat) (base : String) (d : Nat)
    (pr : PullRequest) (rr : ReadFileResult) (wr : UpsertFileResult)
    (hn : req.normalized = .ok n)
    (hf : env.fetchProfile = .ok profile)
    (hv : env.validateProfile profile = none)
    (hb : resolveBaseBranch env n.repository.baseBranch = (.ok base, d))
    (hfind : env.findOpen = .ok (some pr))
    (hmk : strContains pr.body n.pullRequest.managedByMarker = true)
    (hread : env.readFile = .ok rr)
    (hdiff : ¬(rr.hasFile = true ∧ rr.content = profile))
    (hupsert : env.upsert = .ok wr) :
    Service.Run env req =
      (.ok { baseBranch := base, headBranch := n.repository.headBranch,
             pullRequestNumber := pr.number, commitSHA := wr.commitSHA,
             isProfileChanged := true, isPullRequestCreated := false, isNoop := false },
       ⟨1, 1, d, 1, 1, 1, 0⟩) := by
  unfold Service.Run
  simp only [hn, hf, hv, hb, hfind, hread]
  simp [unmanagedGuard, hmk, hdiff, hupsert]

/-- C9: normalization fails exactly when the profile URL is absent or
lacks a scheme or host, or the repository owner, name, or artifact path
is blank; on success the sample duration, head branch, marker, title,
body, and commit message get their defaults exactly when the original
was non-positive respectively blank; and a normalization failure makes
Run return the InvalidRequest-style error with no collaborator called. -/
theorem normalized_spec (req : RunRequest) :
    ((∃ e, req.normalized = Except.error e) ↔
      (req.profile.url = none ∨
       (∃ u, req.profile.url = some u ∧ (u.scheme = "" ∨ u.host = "")) ∨
       trimSpace req.repository.owner = "" ∨
       trimSpace req.repository.name = "" ∨
       trimSpace req.repository.pgoPath = "")) ∧
    (∀ n, req.normalized = Except.ok n →
      n.profile.seconds =
        (if req.profile.seconds ≤ 0 then defaultProfileSeconds else req.profile.seconds) ∧
      n.repository.headBranch =
        (if trimSpace req.repository.headBranch = "" then defaultHeadBranch
         else req.repository.headBranch) ∧
      n.pullRequest.managedByMarker =
        (if trimSpace req.pullRequest.managedByMarker = "" then defaultManagedByMarker
         else req.pullRequest.managedByMarker) ∧
      n.pullRequest.title =
        (if trimSpace req.pullRequest.title = "" then defaultPRTitle
         else req.pullRequest.title) ∧
      n.pullRequest.body =
        (if trimSpace req.pullRequest.body = "" then defaultPRBody
         else req.pullRequest.body) ∧
      n.commit.message =
        (if trimSpace req.commit.message = "" then defaultCommitMessage
         else req.commit.message)) ∧
    (∀ env e, req.normalized = Except.error e →
      Service.Run env req = (Except.error (RunError.invalidRequest e), Trace.zero)) := by
  obtain ⟨⟨u, secs, hdrs⟩, ⟨ow, nm, pp, bb, hbr⟩, ⟨ti, bo, mk⟩, ⟨cms⟩⟩ := req
  refine ⟨?_, ?_, ?_⟩
  · cases u with
    | none => simp [RunRequest.normalized]
    | some u0 =>
      by_cases h1 : u0.scheme = "" ∨ u0.host = ""
      · simp [RunRequest.normalized, h1]
      · by_cases h2 : trimSpace ow = ""
        · simp [RunRequest.normalized, h1, h2,
            apply_ite RunRequest.repository, ite_self]
        · by_cases h3 : trimSpace nm = ""
          · simp [RunRequest.normalized, h1, h2, h3,
              apply_ite RunRequest.repository, ite_self]
          · by_cases h4 : trimSpace pp = ""
            · simp [RunRequest.normalized, h1, h2, h3, h4,
                apply_ite RunRequest.repository, ite_self]
            · simp [RunRequest.normalized, h1, h2, h3, h4,
                apply_ite RunRequest.repository, apply_ite RunRequest.pullRequest,
                apply_ite RunRequest.commit, ite_self]
  · intro n hn
    cases u with
    | none => simp [RunRequest.normalized] at hn
    | some u0 =>
      by_cases h1 : u0.scheme = "" ∨ u0.host = ""
      · simp [RunRequest.normalized, h1] at hn
      · by_cases h2 : trimSpace ow = ""
        · simp [RunRequest.normalized, h1, h2,
            apply_ite RunRequest.repository, ite_self] at hn
        · by_cases h3 : trimSpace nm = ""
          · simp [RunRequest.normalized, h1, h2, h3,
              apply_ite RunRequest.repository, ite_self] at hn
          · by_cases h4 : trimSpace pp = ""
            · simp [RunRequest.normalized, h1, h2, h3, h4,
                apply_ite RunRequest.repository, ite_self] at hn
            · simp only [RunRequest.normalized, h1, h2, h3, h4,
                apply_ite RunRequest.repository, apply_ite RunRequest.pullRequest,
                apply_ite RunRequest.commit, apply_ite RepositorySettings.headBranch,
                apply_ite PullRequestSettings.managedByMarker,
                apply_ite PullRequestSettings.title, apply_ite PullRequestSettings.body,
                apply_ite CommitSettings.message, ite_self, if_false, if_true,
                Except.ok.injEq] at hn
              subst hn
              simp [apply_ite RunRequest.profile, apply_ite RunRequest.repository,
                apply_ite RunRequest.pullRequest, apply_ite RunRequest.commit,
                apply_ite ProfileSettings.seconds, apply_ite RepositorySettings.headBranch,
                apply_ite PullRequestSettings.managedByMarker,
                apply_ite PullRequestSettings.title, apply_ite PullRequestSettings.body,
                apply_ite CommitSettings.message, ite_self]
  · intro env e he
    unfold Service.Run
    simp only [he]

/-- C9 witness: the invalid request fails with zero collaborator calls,
the blank request has its defaults filled, and the counted invalid
condition holds. -/
theorem normalized_spec_witness :
    Service.Run envUnmanaged badReq =
      (Except.error (RunError.invalidRequest "profile url is required"), Trace.zero) ∧
    blankNorm.profile.seconds =
      (if blankReq.profile.seconds ≤ 0 then defaultProfileSeconds
       else blankReq.profile.seconds) ∧
    blankNorm.repository.headBranch =
      (if trimSpace blankReq.repository.headBranch = "" then defaultHeadBranch
       else blankReq.repository.headBranch) ∧
    (∃ e, badReq.normalized = Except.error e) :=
  ⟨(normalized_spec badReq).2.2 envUnmanaged "profile url is required" (by decide),
   ((normalized_spec blankReq).2.1 blankNorm (by decide)).1,
   ((normalized_spec blankReq).2.1 blankNorm (by decide)).2.1,
   ((normalized_spec badReq).1).mpr (Or.inl rfl)⟩

/-- C4 witness: concrete managed pull request reused on changed bytes. -/
theorem run_reuse_managed_pr_witness :
    Service.Run envReuse sampleReq =
      (.ok { baseBranch := "main", headBranch := "cpgo",
             pullRequestNumber := 12, commitSHA := "newsha",
             isProfileChanged := true, isPullRequestCreated := false, isNoop := false },
       ⟨1, 1, 0, 1, 1, 1, 0⟩) :=
  run_reuse_managed_pr envReuse sampleReq sampleReq [1] "main" 0
    ⟨12, "t", "refresh <!-- managed-by:cpgo --> end", "u"⟩ ⟨[2], true⟩ ⟨"newsha", false⟩
    (by decide) rfl rfl (by decide) rfl (by decide) rfl (by decide) rfl

/-- C6: when the first force-update succeeds the head ref existed and
isBranchCreated is false with a single update attempt; when it fails with
a recognizable missing-reference condition (404 or the 422
reference-does-not-exist response, not a generic error) and creation
succeeds, the operation creates the ref pointing at the new commit and
reports isBranchCreated true. -/
theorem updateHeadRef_branch_creation (env : RefEnv) (sha : String) :
    (env.updateRef1 = none → updateHeadRef env sha = (.ok false, [.update sha])) ∧
    (∀ e, env.updateRef1 = some e →
      (isNotFound e || isReferenceMissing e) = true →
      env.createRef = none →
      updateHeadRef env sha = (.ok true, [.update sha, .create sha])) := by
  constructor
  · intro h
    unfold updateHeadRef
    simp only [h]
  · intro e h1 hrec hc
    unfold updateHeadRef
    simp only [h1, hc]
    simp [← Bool.not_or, hrec]

/-- C6 witness: both branches at concrete ref environments. -/
theorem updateHeadRef_branch_creation_witness :
    updateHeadRef refEnvOkUpdate "abc" = (.ok false, [.update "abc"]) ∧
    updateHeadRef refEnvCreate "abc" = (.ok true, [.update "abc", .create "abc"]) :=
  ⟨(updateHeadRef_branch_creation refEnvOkUpdate "abc").1 rfl,
   (updateHeadRef_branch_creation refEnvCreate "abc").2 ghRefMissing rfl (by decide) rfl⟩

/-- C7 counterexample: in the contended case three branch-pointer
mutation attempts occur (force-update, create, retried force-update),
so the claimed bound of two fails. -/
theorem updateHeadRef_two_attempts_false :
    ¬ ((updateHeadRef refEnvContended "abc").2.length ≤ 2) := by decide

/-- C7 (amended): at most three ref-mutation attempts are performed per
upsert, and when the fallback creation and the single retried
force-update both fail, the combined error referencing the creation
failure and the retry failure is returned. -/
theorem updateHeadRef_attempts_spec (env : RefEnv) (sha : String) :
    (updateHeadRef env sha).2.length ≤ 3 ∧
    (∀ e ce ue, env.updateRef1 = some e →
      (isNotFound e || isReferenceMissing e) = true →
      env.createRef = some ce → env.updateRef2 = some ue →
      updateHeadRef env sha =
        (.error (.createFailed ce ue), [.update sha, .create sha, .update sha])) := by
  constructor
  · unfold updateHeadRef
    repeat' split
    all_goals simp
  · intro e ce ue h1 hrec hc hu
    unfold updateHeadRef
    simp only [h1, hc, hu]
    simp [← Bool.not_or, hrec]

/-- C7 witness: the contended environment realises the three-attempt
path and the combined error. -/
theorem updateHeadRef_attempts_spec_witness :
    updateHeadRef refEnvContended "abc" =
      (.error (.createFailed ghAlreadyExists ghServerErr),
       [.update "abc", .create "abc", .update "abc"]) :=
  (updateHeadRef_attempts_spec refEnvContended "abc").2 ghRefMissing ghAlreadyExists
    ghServerErr rfl (by decide) rfl rfl

theorem findBlobSHA_no_match (p : String) (l : List TreeEntry)
    (h : ∀ e ∈ l, e.path ≠ p) : findBlobSHA p l = .ok "" := by
  induction l with
  | nil => rfl
  | cons a rest ih =>
    have ha : a.path ≠ p := h a (by simp)
    simp only [findBlobSHA]
    rw [if_neg ha]
    exact ih fun e he => h e (by simp [he])

theorem findBlobSHA_find_eq (p : String) (l : List TreeEntry) (en : TreeEntry)
    (h : l.find? (fun e => e.path == p) = some en) :
    findBlobSHA p l =
      (if en.entryType ≠ "blob" then .error (.notBlobEntry p)
       else .ok (trimSpace en.sha)) := by
  induction l with
  | nil => simp [List.find?] at h
  | cons a rest ih =>
    by_cases ha : a.path = p
    · simp only [List.find?, ha, beq_self_eq_true] at h
      cases h
      simp only [findBlobSHA]
      rw [if_pos ha]
    · have hne : (a.path == p) = false := beq_eq_false_iff_ne.mpr ha
      simp only [List.find?, hne] at h
      simp only [findBlobSHA]
      rw [if_neg ha]
      exact ih h

/-- C8: with valid request fields and a successfully listed tree, a
complete listing with no entry matching the path yields an absent file
with no error; a truncated listing with no match fails with the
tree-truncated error; a first matching entry that is not a blob fails
with the unexpected-entry-type error; and a matching blob entry whose
blob fetch returns 404 yields an absent file rather than an error. -/
theorem readFile_spec (env : ReadEnv) (req : ReadFileRequest) (tree : TreeResp)
    (hvo : trimSpace req.repository.owner ≠ "")
    (hvn : trimSpace req.repository.name ≠ "")
    (hvb : trimSpace req.branch ≠ "")
    (hvp : trimSpace req.path ≠ "")
    (ct : String × String)
    (hbase : env.baseCommitTree = .ok ct)
    (htree : env.getTree = .ok tree) :
    ((∀ e ∈ tree.entries, e.path ≠ req.path) → tree.truncated = false →
        Client.ReadFile env req = .ok { content := [], hasFile := false }) ∧
    ((∀ e ∈ tree.entries, e.path ≠ req.path) → tree.truncated = true →
        Client.ReadFile env req = .error (.treeTruncated req.path)) ∧
    (∀ en, tree.entries.find? (fun e => e.path == req.path) = some en →
        en.entryType ≠ "blob" →
        Client.ReadFile env req = .error (.notBlobEntry req.path)) ∧
    (∀ en ge, tree.entries.find? (fun e => e.path == req.path) = some en →
        en.entryType = "blob" → trimSpace en.sha ≠ "" →
        env.getBlobRaw = .error ge → isNotFound ge = true →
        Client.ReadFile env req = .ok { content := [], hasFile := false }) := by
  refine ⟨?_, ?_, ?_, ?_⟩
  · intro hno htr
    unfold Client.ReadFile
    rw [if_neg hvo, if_neg hvn, if_neg hvb, if_neg hvp]
    simp only [hbase, htree, findBlobSHA_no_match req.path tree.entries hno, htr]
    simp
  · intro hno htr
    unfold Client.ReadFile
    rw [if_neg hvo, if_neg hvn, if_neg hvb, if_neg hvp]
    simp only [hbase, htree, findBlobSHA_no_match req.path tree.entries hno, htr]
    simp
  · intro en hfind htyp
    unfold Client.ReadFile
    rw [if_neg hvo, if_neg hvn, if_neg hvb, if_neg hvp]
    simp only [hbase, htree, findBlobSHA_find_eq req.path tree.entries en hfind]
    simp [htyp]
  · intro en ge hfind htyp hsha hblob hnf
    unfold Client.ReadFile
    rw [if_neg hvo, if_neg hvn, if_neg hvb, if_neg hvp]
    simp only [hbase, htree, findBlobSHA_find_eq req.path tree.entries en hfind]
    simp [htyp, hsha, hblob, hnf]

/-- C8 witness: all four read scenarios at concrete environments. -/
theorem readFile_spec_witness :
    Client.ReadFile readEnvNoMatch readReq = .ok { content := [], hasFile := false } ∧
    Client.ReadFile readEnvTruncated readReq = .error (.treeTruncated readReq.path) ∧
    Client.ReadFile readEnvNonBlob readReq = .error (.notBlobEntry readReq.path) ∧
    Client.ReadFile readEnvBlobGone readReq = .ok { content := [], hasFile := false } :=
  ⟨(readFile_spec readEnvNoMatch readReq ⟨[⟨"README.md", "blob", "sha1"⟩], false⟩
      (by decide) (by decide) (by decide) (by decide) ("csha", "tsha") rfl rfl).1
      (by decide) rfl,
   (readFile_spec readEnvTruncated readReq ⟨[⟨"README.md", "blob", "sha1"⟩], true⟩
      (by decide) (by decide) (by decide) (by decide) ("csha", "tsha") rfl rfl).2.1
      (by decide) rfl,
   (readFile_spec readEnvNonBlob readReq ⟨[⟨"default.pgo", "tree", "sha2"⟩], false⟩
      (by decide) (by decide) (by decide) (by decide) ("csha", "tsha") rfl rfl).2.2.1
      ⟨"default.pgo", "tree", "sha2"⟩ (by decide) (by decide),
   (readFile_spec readEnvBlobGone readReq ⟨[⟨"default.pgo", "blob", "sha3"⟩], false⟩
      (by decide) (by decide) (by decide) (by decide) ("csha", "tsha") rfl rfl).2.2.2
      ⟨"default.pgo", "blob", "sha3"⟩ ghNotFound (by decide) (by decide) (by decide)
      rfl (by decide)⟩

end Cpgo
